import Mathlib

/-!
Shallow embedding of the ZRO alpaca dome driver (Go) and proofs about it.

Floating-point (`float64`) arithmetic of the source is idealized as exact
rational (`ℚ`) arithmetic; Go `int` values are modelled as `ℤ`, the
`atomic.Int32` transaction counter keeps its 32-bit wrap-around semantics.
-/

namespace Zro

/-! ## Rational-number helpers mirroring Go numeric conversions -/

/-- Go truncation toward zero: the semantics of Go's `int(x)` conversion from
`float64` and of the quotient rounding inside `math.Mod`. -/
def ratTrunc (q : ℚ) : ℤ :=
  if q < 0 then -⌊-q⌋ else ⌊q⌋

/-- Go `math.Mod(x, y)`: `x - y * trunc(x/y)` (result has the sign of `x`). -/
def goMod (x y : ℚ) : ℚ :=
  x - y * (ratTrunc (x / y) : ℚ)

/-- The `for angle < 0 { angle += 360 }` loop of `normalizeAngle`, in the
exact-rational idealization of `float64`: here every `+ 360` makes progress,
so the loop terminates on every input. Under real `float64` semantics the
increment is absorbed by rounding once the magnitude is large enough and the
loop diverges; that semantics is modelled separately by
`liftNonnegFloatSteps` below. -/
def liftNonneg (angle : ℚ) : ℚ :=
  if angle < 0 then liftNonneg (angle + 360) else angle
termination_by (⌈-angle / 360⌉).toNat
decreasing_by
  rename_i h
  have h1 : (0:ℚ) < -angle := by linarith
  have hceil : ⌈-(angle + 360) / 360⌉ = ⌈-angle / 360⌉ - 1 := by
    have : -(angle + 360) / 360 = -angle / 360 + (-1 : ℤ) := by ring
    rw [this, Int.ceil_add_int]; omega
  have hpos : 0 < ⌈-angle / 360⌉ := by
    apply Int.ceil_pos.mpr
    positivity
  omega

/-- Embeds `normalizeAngle` from the zro driver: lift into the non-negatives by
adding full turns, then `math.Mod(angle + 360, 360)`. -/
def normalizeAngle (angle : ℚ) : ℚ :=
  goMod (liftNonneg angle + 360) 360

/-- Specification-side normalization, written from the spec's words:
map any real into `[0, 360)` (the canonical representative modulo 360). -/
def specNormalize (x : ℚ) : ℚ :=
  x - 360 * (⌊x / 360⌋ : ℚ)

theorem specNormalize_add_360 (x : ℚ) : specNormalize (x + 360) = specNormalize x := by
  unfold specNormalize
  have : (x + 360) / 360 = x / 360 + (1 : ℤ) := by push_cast; ring
  rw [this, Int.floor_add_int]
  push_cast
  ring

theorem specNormalize_nonneg (x : ℚ) : 0 ≤ specNormalize x := by
  unfold specNormalize
  have h := Int.floor_le (x / 360)
  nlinarith

theorem specNormalize_lt (x : ℚ) : specNormalize x < 360 := by
  unfold specNormalize
  have h := Int.lt_floor_add_one (x / 360)
  nlinarith

theorem liftNonneg_nonneg (x : ℚ) : 0 ≤ liftNonneg x := by
  unfold liftNonneg
  split
  · exact liftNonneg_nonneg (x + 360)
  · linarith
termination_by (⌈-x / 360⌉).toNat
decreasing_by
  rename_i h
  have h1 : (0:ℚ) < -x := by linarith
  have hceil : ⌈-(x + 360) / 360⌉ = ⌈-x / 360⌉ - 1 := by
    have : -(x + 360) / 360 = -x / 360 + (-1 : ℤ) := by ring
    rw [this, Int.ceil_add_int]; omega
  have hpos : 0 < ⌈-x / 360⌉ := by
    apply Int.ceil_pos.mpr
    positivity
  omega

theorem specNormalize_liftNonneg (x : ℚ) :
    specNormalize (liftNonneg x) = specNormalize x := by
  unfold liftNonneg
  split
  · rw [specNormalize_liftNonneg (x + 360), specNormalize_add_360]
  · rfl
termination_by (⌈-x / 360⌉).toNat
decreasing_by
  rename_i h
  have h1 : (0:ℚ) < -x := by linarith
  have hceil : ⌈-(x + 360) / 360⌉ = ⌈-x / 360⌉ - 1 := by
    have : -(x + 360) / 360 = -x / 360 + (-1 : ℤ) := by ring
    rw [this, Int.ceil_add_int]; omega
  have hpos : 0 < ⌈-x / 360⌉ := by
    apply Int.ceil_pos.mpr
    positivity
  omega

theorem ratTrunc_of_nonneg {q : ℚ} (h : 0 ≤ q) : ratTrunc q = ⌊q⌋ := by
  unfold ratTrunc
  rw [if_neg (not_lt.mpr h)]

/-- On inputs already lifted to be non-negative, the Go `math.Mod` step computes
exactly the canonical representative modulo 360. -/
theorem goMod_eq_specNormalize {y : ℚ} (hy : 0 ≤ y) :
    goMod (y + 360) 360 = specNormalize y := by
  unfold goMod specNormalize
  have hq : 0 ≤ (y + 360) / 360 := by positivity
  rw [ratTrunc_of_nonneg hq]
  have : (y + 360) / 360 = y / 360 + (1 : ℤ) := by push_cast; ring
  rw [this, Int.floor_add_int]
  push_cast
  ring

/-- The loop-plus-mod implementation agrees with the canonical normalization. -/
theorem normalizeAngle_eq_specNormalize (x : ℚ) :
    normalizeAngle x = specNormalize x := by
  unfold normalizeAngle
  rw [goMod_eq_specNormalize (liftNonneg_nonneg x), specNormalize_liftNonneg]

theorem normalizeAngle_mem (x : ℚ) :
    0 ≤ normalizeAngle x ∧ normalizeAngle x < 360 := by
  rw [normalizeAngle_eq_specNormalize]
  exact ⟨specNormalize_nonneg x, specNormalize_lt x⟩

/-! ## Dome configuration and angle/tick conversion (`pkg/dome`) -/

/-- The numeric and policy fields of the dome `Config` (MQTT endpoint fields
omitted: no claim depends on them). `float64` fields are `ℚ`, `int` fields `ℤ`. -/
structure Config where
  ticksPerTurn : ℤ
  tolerance : ℤ
  homePosition : ℚ
  parkPosition : ℚ
  azimuthTimeout : ℤ
  maxSpeed : ℤ
  minSpeed : ℤ
  brakeSpeed : ℤ
  encoderDiv : ℤ
  velTimeout : ℤ
  shortDistance : ℤ
  parkOnShutter : Bool
  shutterTimeout : ℤ
  useShutter : Bool
  deriving Repr, DecidableEq

/-- Embeds `DefaultConfig()` from the dome package. -/
def defaultConfig : Config where
  ticksPerTurn := 10476
  tolerance := 4
  homePosition := 0
  parkPosition := 0
  azimuthTimeout := 20000
  maxSpeed := 200
  minSpeed := 30
  brakeSpeed := 80
  encoderDiv := 1
  velTimeout := 10
  shortDistance := 100
  parkOnShutter := false
  shutterTimeout := 0
  useShutter := true

/-- Embeds `Config.Validate`: `true` exactly when every range check passes. -/
def Config.validate (c : Config) : Bool :=
  0 < c.ticksPerTurn && 0 ≤ c.tolerance && 0 < c.azimuthTimeout &&
  0 < c.maxSpeed && 0 < c.minSpeed && 0 < c.brakeSpeed && 0 < c.encoderDiv

/-- Embeds `Dome.DegreesToTicks`; Go's `int(...)` conversion truncates toward zero. -/
def degreesToTicks (c : Config) (degrees : ℚ) : ℤ :=
  ratTrunc (normalizeAngle (degrees - c.homePosition) * (c.ticksPerTurn : ℚ) / 360)

/-- Embeds `Dome.TicksToDegrees`. -/
def ticksToDegrees (c : Config) (ticks : ℤ) : ℚ :=
  (ticks : ℚ) * 360 / (c.ticksPerTurn : ℚ) + c.homePosition

/-- Rounding to the nearest integer, as the spec's `round(...)` reads. -/
def specRound (q : ℚ) : ℤ := ⌊q + 1 / 2⌋

/-- The conversion the spec describes:
`ticks = round(normalize(degrees − homeOffset) × ticksPerRevolution / 360)`. -/
def specDegreesToTicks (c : Config) (degrees : ℚ) : ℤ :=
  specRound (specNormalize (degrees - c.homePosition) * (c.ticksPerTurn : ℚ) / 360)

/-- What the implementation actually computes: the floor (= truncation on a
non-negative operand) of the tick value, not its rounding. -/
theorem degreesToTicks_eq_floor (c : Config) (degrees : ℚ)
    (hT : 0 < c.ticksPerTurn) :
    degreesToTicks c degrees =
      ⌊specNormalize (degrees - c.homePosition) * (c.ticksPerTurn : ℚ) / 360⌋ := by
  unfold degreesToTicks
  rw [normalizeAngle_eq_specNormalize]
  apply ratTrunc_of_nonneg
  have h0 : (0:ℚ) < (c.ticksPerTurn : ℚ) := by exact_mod_cast hT
  have h1 := specNormalize_nonneg (degrees - c.homePosition)
  positivity

/-- A configuration with a non-zero home offset, used to exercise the
conversion round trip away from the default geometry. -/
def cfgHome10 : Config :=
  { defaultConfig with ticksPerTurn := 360, homePosition := 10 }

/-- C4: the claim reads `DegreesToTicks(degrees) =
round(normalize(degrees − homeOffset) × ticksPerRevolution / 360)`; the code
truncates instead of rounding, so the two differ at `degrees = 0.1` under the
default configuration (exact value 2.91: truncation gives 2, rounding 3). -/
theorem C4_counterexample :
    degreesToTicks defaultConfig (1 / 10) = 2 ∧
      specDegreesToTicks defaultConfig (1 / 10) = 3 := by
  have hnorm : specNormalize ((1:ℚ) / 10 - defaultConfig.homePosition) = 1 / 10 := by
    simp only [defaultConfig, specNormalize]
    norm_num [Int.floor_eq_iff]
  constructor
  · rw [degreesToTicks_eq_floor _ _ (by norm_num [defaultConfig]), hnorm]
    simp only [defaultConfig]
    norm_num [Int.floor_eq_iff]
  · unfold specDegreesToTicks specRound
    rw [hnorm]
    simp only [defaultConfig]
    norm_num [Int.floor_eq_iff]

/-- C4 (amended): for every configuration with `ticksPerRevolution > 0`,
`DegreesToTicks(degrees)` equals the *floor* (truncation) of
`normalize(degrees − homeOffset) × ticksPerRevolution / 360` — not its
rounding — and `TicksToDegrees(ticks)` equals
`ticks × 360 / ticksPerRevolution + homeOffset`. -/
theorem C4_conversion_formulas (c : Config) (degrees : ℚ) (ticks : ℤ)
    (hT : 0 < c.ticksPerTurn) :
    degreesToTicks c degrees =
        ⌊specNormalize (degrees - c.homePosition) * (c.ticksPerTurn : ℚ) / 360⌋ ∧
      ticksToDegrees c ticks =
        (ticks : ℚ) * 360 / (c.ticksPerTurn : ℚ) + c.homePosition :=
  ⟨degreesToTicks_eq_floor c degrees hT, rfl⟩

theorem C4_witness :
    0 < defaultConfig.ticksPerTurn ∧
      (degreesToTicks defaultConfig (1 / 10) =
          ⌊specNormalize ((1 / 10 : ℚ) - defaultConfig.homePosition) *
            (defaultConfig.ticksPerTurn : ℚ) / 360⌋ ∧
        ticksToDegrees defaultConfig 7 =
          (7 : ℚ) * 360 / (defaultConfig.ticksPerTurn : ℚ) +
            defaultConfig.homePosition) :=
  ⟨by decide, C4_conversion_formulas defaultConfig (1 / 10) 7 (by decide)⟩

/-- C5: the claim bounds `|TicksToDegrees(DegreesToTicks(x)) − x|` by one
tick's resolution for every configuration; with `homePosition = 10`,
`ticksPerRevolution = 360` and `x = 5` the round trip yields 365, a full turn
plus the claim's bound away from `x`. -/
theorem C5_counterexample :
    ticksToDegrees cfgHome10 (degreesToTicks cfgHome10 5) = 365 ∧
      ¬|ticksToDegrees cfgHome10 (degreesToTicks cfgHome10 5) - 5| ≤
          360 / (cfgHome10.ticksPerTurn : ℚ) := by
  have hticks : degreesToTicks cfgHome10 5 = 355 := by
    rw [degreesToTicks_eq_floor _ _ (by norm_num [cfgHome10, defaultConfig])]
    simp only [cfgHome10, defaultConfig, specNormalize]
    norm_num [Int.floor_eq_iff]
  rw [hticks]
  constructor
  · simp only [ticksToDegrees, cfgHome10, defaultConfig]
    norm_num
  · simp only [ticksToDegrees, cfgHome10, defaultConfig]
    norm_num

/-- C5 (amended): the round trip returns `x` within one tick's angular
resolution only up to a whole number of full turns: there is an integer `k`
with `|TicksToDegrees(DegreesToTicks(x)) − x − 360k| ≤ 360/ticksPerRevolution`
(for `homeOffset = 0` the plain bound holds, since then `k = 0` works). -/
theorem C5_roundtrip_within_tick (c : Config) (x : ℚ)
    (hT : 0 < c.ticksPerTurn) (hx0 : 0 ≤ x) (hx1 : x < 360) :
    ∃ k : ℤ, |ticksToDegrees c (degreesToTicks c x) - x - 360 * k| ≤
        360 / (c.ticksPerTurn : ℚ) := by
  have hTq : (0:ℚ) < (c.ticksPerTurn : ℚ) := by exact_mod_cast hT
  refine ⟨-⌊(x - c.homePosition) / 360⌋, ?_⟩
  rw [degreesToTicks_eq_floor c x hT]
  set n : ℚ := specNormalize (x - c.homePosition) with hn
  set T : ℚ := (c.ticksPerTurn : ℚ) with hTdef
  set q : ℚ := n * T / 360 with hq
  have hfl : (⌊q⌋ : ℚ) ≤ q := Int.floor_le q
  have hfl2 : q < ⌊q⌋ + 1 := Int.lt_floor_add_one q
  have hqT : q * 360 = n * T := by rw [hq]; ring
  have hkey : ticksToDegrees c ⌊q⌋ - x - 360 * (-⌊(x - c.homePosition) / 360⌋ : ℤ) =
      ((⌊q⌋ : ℚ) * 360 - n * T) / T := by
    unfold ticksToDegrees
    rw [hn]
    unfold specNormalize
    push_cast
    field_simp
    ring
  rw [hkey, abs_le]
  constructor
  · rw [neg_le, ← neg_div, div_le_div_iff_of_pos_right hTq]
    nlinarith
  · rw [div_le_div_iff_of_pos_right hTq]
    nlinarith

theorem C5_witness :
    0 < defaultConfig.ticksPerTurn ∧ (0:ℚ) ≤ 45 ∧ (45:ℚ) < 360 ∧
      ∃ k : ℤ, |ticksToDegrees defaultConfig (degreesToTicks defaultConfig 45) -
          45 - 360 * k| ≤ 360 / (defaultConfig.ticksPerTurn : ℚ) :=
  ⟨by decide, by decide, by decide,
    C5_roundtrip_within_tick defaultConfig 45 (by decide) (by decide) (by decide)⟩

/-! ### The normalize loop under real `float64` semantics

The claim asserts termination of `normalizeAngle` for every real input. The
Go loop adds the `float64` constant 360 repeatedly; `float64` addition rounds
to the nearest representable double, and once the magnitude of `angle`
exceeds about `2^62` the increment is smaller than half an ulp and is
absorbed: the loop body no longer changes `angle` and the loop never exits.
The model below captures binary64 round-to-nearest-even for finite values in
the normal range (overflow, subnormals and signed zeros do not occur on the
inputs considered). -/

/-- Rounding of a rational to the nearest integer, ties to even. -/
def roundHalfEven (x : ℚ) : ℤ :=
  if x - ⌊x⌋ < 1 / 2 then ⌊x⌋
  else if 1 / 2 < x - ⌊x⌋ then ⌊x⌋ + 1
  else if ⌊x⌋ % 2 = 0 then ⌊x⌋ else ⌊x⌋ + 1

/-- IEEE-754 binary64 rounding of an exact rational value: snap to the
53-bit grid of the value's binade (the representable doubles near `q` are
the integer multiples of `2 ^ (⌊log2 |q|⌋ - 52)`). -/
def roundDouble (q : ℚ) : ℚ :=
  if q = 0 then 0
  else
    ((if q < 0 then -1 else 1) : ℚ) *
      ((roundHalfEven (|q| / 2 ^ (Int.log 2 |q| - 52)) : ℤ) : ℚ) *
        2 ^ (Int.log 2 |q| - 52)

/-- Addition of `float64` values: the exact sum, rounded. -/
def floatAdd (x y : ℚ) : ℚ := roundDouble (x + y)

/-- The state of `angle` after `n` iterations of the Go loop
`for angle < 0 { angle += 360 }` under `float64` semantics. The loop
terminates on input `x` exactly when some iterate is non-negative. -/
def liftNonnegFloatSteps (x : ℚ) : ℕ → ℚ
  | 0 => x
  | n + 1 =>
    if liftNonnegFloatSteps x n < 0 then floatAdd (liftNonnegFloatSteps x n) 360
    else liftNonnegFloatSteps x n

/-- C6: the termination half of the claim fails under the program's
`float64` arithmetic: `-10^19` is exactly representable (`10^19 = 2^19·5^19`
with a 45-bit mantissa), the doubles in its binade are `2^11` apart, and
`-10^19 + 360` rounds back to `-10^19` (360 is less than half an ulp). Every
iterate of the loop is therefore `-10^19 < 0` and the loop guard never
becomes false: `normalizeAngle(-10^19)` does not terminate. -/
theorem C6_counterexample :
    floatAdd (-(10 ^ 19)) 360 = -(10 ^ 19) ∧
      (∀ n : ℕ, liftNonnegFloatSteps (-(10 ^ 19)) n = -(10 ^ 19)) ∧
      ¬(∃ n : ℕ, 0 ≤ liftNonnegFloatSteps (-(10 ^ 19)) n) := by
  have habsorb : floatAdd (-(10 ^ 19)) 360 = -(10 ^ 19) := by
    have hsum : (-(10 ^ 19 : ℚ)) + 360 = -(9999999999999999640 : ℚ) := by norm_num
    have habs : |(-(9999999999999999640 : ℚ))| = (9999999999999999640 : ℚ) := by
      rw [abs_neg, abs_of_nonneg (by norm_num)]
    have hlog : Int.log 2 ((9999999999999999640 : ℚ)) = 63 := by
      rw [show ((9999999999999999640 : ℚ)) = ((9999999999999999640 : ℕ) : ℚ) by
        norm_num, Int.log_natCast]
      exact_mod_cast Nat.log_eq_of_pow_le_of_lt_pow (by norm_num) (by norm_num)
    have hzpow : (2 : ℚ) ^ ((63 : ℤ) - 52) = 2048 := by
      rw [show ((63 : ℤ) - 52) = ((11 : ℕ) : ℤ) by norm_num, zpow_natCast]
      norm_num
    have hfloor : ⌊(9999999999999999640 : ℚ) / 2048⌋ = 4882812499999999 := by
      rw [Int.floor_eq_iff]
      constructor <;> norm_num
    have hround : roundHalfEven ((9999999999999999640 : ℚ) / 2048) =
        4882812500000000 := by
      unfold roundHalfEven
      rw [hfloor]
      norm_num
    unfold floatAdd roundDouble
    rw [hsum, if_neg (by norm_num), habs, hlog, hzpow, if_pos (by norm_num), hround]
    norm_num
  have hsteps : ∀ n : ℕ, liftNonnegFloatSteps (-(10 ^ 19)) n = -(10 ^ 19) := by
    intro n
    induction n with
    | zero => rfl
    | succ n ih =>
      show (if liftNonnegFloatSteps (-(10 ^ 19)) n < 0 then _ else _) = _
      rw [ih, if_pos (by norm_num)]
      exact habsorb
  refine ⟨habsorb, hsteps, ?_⟩
  rintro ⟨n, hn⟩
  rw [hsteps n] at hn
  norm_num at hn

/-- C6 (amended): in the exact-real-arithmetic reading of the spec the claim
holds — `normalizeAngle` is total (the loop's termination is proved by a
well-founded measure, since each `+ 360` makes progress on exact numbers)
and its value lies in `[0, 360)` for every input. Under `float64` semantics
this is restricted to the inputs on which the loop makes progress: for
absorbing inputs such as `-10^19` the loop never terminates
(`C6_counterexample`). -/
theorem C6_normalizeAngle_range (x : ℚ) :
    0 ≤ normalizeAngle x ∧ normalizeAngle x < 360 :=
  normalizeAngle_mem x

/-! ## Protocol codec: `parseResponse`

Messages are modelled as `List Char`. Two variants exist in the repository:
the `pkg/dome` one indexes `parts[0][0]` unguarded, the `pkg/drivers/zro` one
first checks `len(parts[0]) != 1`. -/

/-- Go `strings.Split` with a one-character separator: always returns at
least one field; `n` separators yield `n + 1` fields. -/
def splitOnChar (sep : Char) : List Char → List (List Char)
  | [] => [[]]
  | c :: cs =>
    let rest := splitOnChar sep cs
    if c = sep then [] :: rest
    else
      match rest with
      | [] => [[c]]
      | f :: fs => (c :: f) :: fs

/-- Go `strings.Trim(s, cutset)` for a one-character cutset: remove every
leading and trailing occurrence. -/
def trimChar (cut : Char) (s : List Char) : List Char :=
  ((s.dropWhile (· = cut)).reverse.dropWhile (· = cut)).reverse

/-- Go `strings.HasSuffix(s, ";")`. -/
def hasSuffixSemi (s : List Char) : Bool :=
  s.getLast? = some ';'

/-- The decode failures of `parseResponse`, one per `fmt.Errorf` site. -/
inductive DecodeErr where
  | badFields   -- "bad number of fields"
  | badSuffix   -- "invalid response suffix"
  | badAck      -- "invalid response format"
  | badCmdLen   -- "invalid command format" (zro variant only)
  | badValue    -- "invalid response value"
  deriving Repr, DecidableEq

/-- The `Response` struct: command code, optional value, NACK flag. -/
structure Resp where
  code : Char
  value : Option (List Char)
  error : Bool
  deriving Repr, DecidableEq

/-- Embeds `parseResponse` of `pkg/dome` (the variant without the command-length
guard). `none` models the runtime panic of the unguarded `parts[0][0]`
indexing; `some` carries the Go return value. -/
def parseResponseDome (msg : List Char) : Option (Except DecodeErr Resp) :=
  match splitOnChar '_' msg with
  | [_f0, f1, f2] =>
    if hasSuffixSemi f2 then
      let isNack := f1 = ['N', 'A', 'C', 'K']
      if isNack ∨ f1 = ['A', 'C', 'K'] then
        let cmd := trimChar ';' f2
        match splitOnChar '=' cmd with
        | [] => none
        | p0 :: rest =>
          match p0 with
          | [] => none  -- parts[0][0]: index out of range, the handler panics
          | ch :: _ =>
            match rest with
            | [] => some (.ok ⟨ch, none, decide isNack⟩)
            | [v] => some (.ok ⟨ch, some v, decide isNack⟩)
            | _ => some (.error .badValue)
      else some (.error .badAck)
    else some (.error .badSuffix)
  | _ => some (.error .badFields)

/-- Embeds `parseResponse` of `pkg/drivers/zro`: identical except that it rejects a
command segment whose length differs from 1 before indexing it. -/
def parseResponseZro (msg : List Char) : Except DecodeErr Resp :=
  match splitOnChar '_' msg with
  | [_f0, f1, f2] =>
    if hasSuffixSemi f2 then
      let isNack := f1 = ['N', 'A', 'C', 'K']
      if isNack ∨ f1 = ['A', 'C', 'K'] then
        let cmd := trimChar ';' f2
        match splitOnChar '=' cmd with
        | [] => .error .badCmdLen
        | p0 :: rest =>
          match p0 with
          | [ch] =>
            match rest with
            | [] => .ok ⟨ch, none, decide isNack⟩
            | [v] => .ok ⟨ch, some v, decide isNack⟩
            | _ => .error .badValue
          | _ => .error .badCmdLen
      else .error .badAck
    else .error .badSuffix
  | _ => .error .badFields

/-- C8: both `parseResponse` variants decode the spec's examples exactly as
stated: the three well-formed messages produce the stated code/value/flag, and
the four malformed ones are rejected with a decode error. -/
theorem C8_parseResponse_examples :
    (parseResponseDome "_ACK_S;".toList = some (.ok ⟨'S', none, false⟩) ∧
      parseResponseDome "_ACK_V=(1.2.3);".toList =
        some (.ok ⟨'V', some "(1.2.3)".toList, false⟩) ∧
      parseResponseDome "_NACK_V;".toList = some (.ok ⟨'V', none, true⟩) ∧
      parseResponseDome "ACK_C;".toList = some (.error .badFields) ∧
      parseResponseDome "_NOTACK_V;".toList = some (.error .badAck) ∧
      parseResponseDome "_ACK_P=123=456;".toList = some (.error .badValue) ∧
      parseResponseDome "_ACK_P=123".toList = some (.error .badSuffix)) ∧
    (parseResponseZro "_ACK_S;".toList = .ok ⟨'S', none, false⟩ ∧
      parseResponseZro "_ACK_V=(1.2.3);".toList =
        .ok ⟨'V', some "(1.2.3)".toList, false⟩ ∧
      parseResponseZro "_NACK_V;".toList = .ok ⟨'V', none, true⟩ ∧
      parseResponseZro "ACK_C;".toList = .error .badFields ∧
      parseResponseZro "_NOTACK_V;".toList = .error .badAck ∧
      parseResponseZro "_ACK_P=123=456;".toList = .error .badValue ∧
      parseResponseZro "_ACK_P=123".toList = .error .badSuffix) :=
  ⟨⟨rfl, rfl, rfl, rfl, rfl, rfl, rfl⟩, rfl, rfl, rfl, rfl, rfl, rfl, rfl⟩

/-- C10: the dome package's `parseResponse` does *not* return on every input:
when the segment between the second `_` and the `;` is empty or starts with
`=`, `parts[0]` is empty and the unguarded `parts[0][0]` indexing panics
(modelled as `none`); the zro variant's length guard rejects the same inputs
cleanly. -/
theorem C10_parseResponse_panics :
    parseResponseDome "_ACK_;".toList = none ∧
      parseResponseDome "_ACK_=1;".toList = none ∧
      parseResponseDome "_NACK_;".toList = none ∧
      parseResponseZro "_ACK_;".toList = .error .badCmdLen ∧
      parseResponseZro "_ACK_=1;".toList = .error .badCmdLen :=
  ⟨rfl, rfl, rfl, rfl, rfl⟩

/-! ## Command correlator: `sendCommandWithTimeout` and the response channel -/

/-- Which branch of the `select` in `sendCommandWithTimeout` fires: either a
response is taken from `responseChan`, or the timeout elapses first. -/
inductive SendEvent where
  | response (r : Resp)
  | timedOut
  deriving Repr, DecidableEq

/-- The distinct error returns of `sendCommandWithTimeout`, one per
`return` site. -/
inductive SendErr where
  | notConnected
  | publishFailed
  | rejected (code : Char)   -- "command failed: %c" (the NACK flag was set)
  | mismatch (code : Char)   -- "unexpected response command: %c"
  | timeout                  -- "timeout waiting for response"
  deriving Repr, DecidableEq

/-- Embeds `Dome.sendCommandWithTimeout`: connected check, publish, then the
`select`. The checks on a received response run in source order: the NACK
flag first, the code comparison against `cmd[0]` second. `none` models the
panic of `cmd[0]` on an empty command string (no caller passes one). -/
def sendCommandWithTimeout (connected publishOk : Bool) (cmd : List Char)
    (event : SendEvent) : Option (Except SendErr Unit) :=
  if ¬connected then some (.error .notConnected)
  else if ¬publishOk then some (.error .publishFailed)
  else
    match event with
    | .timedOut => some (.error .timeout)
    | .response r =>
      if r.error then some (.error (.rejected r.code))
      else
        match cmd with
        | [] => none
        | c0 :: _ =>
          if r.code ≠ c0 then some (.error (.mismatch r.code))
          else some (.ok ())

/-- C2: the claim says a response whose code differs from the sent command's
code yields the protocol-mismatch error *regardless of the NACK flag*; but the
code tests `resp.Error` first, so a mismatched NACK — command 'G', response
code 'S' with the error flag set — returns the command-rejected error, not the
mismatch error. -/
theorem C2_counterexample :
    sendCommandWithTimeout true true ['G'] (.response ⟨'S', none, true⟩) =
        some (.error (.rejected 'S')) ∧
      sendCommandWithTimeout true true ['G'] (.response ⟨'S', none, true⟩) ≠
        some (.error (.mismatch 'S')) := by
  have h0 : sendCommandWithTimeout true true ['G'] (.response ⟨'S', none, true⟩) =
      some (.error (.rejected 'S')) := rfl
  exact ⟨h0, by rw [h0]; simp⟩

/-- C2 (amended): a mismatched response yields the protocol-mismatch error
exactly when it does not carry the NACK flag; a response carrying the NACK
flag yields the command-rejected error even when its code differs from the
sent command's code. -/
theorem C2_mismatch_without_nack (c0 : Char) (rest : List Char) (r : Resp)
    (hne : r.code ≠ c0) :
    (r.error = false →
      sendCommandWithTimeout true true (c0 :: rest) (.response r) =
        some (.error (.mismatch r.code))) ∧
    (r.error = true →
      sendCommandWithTimeout true true (c0 :: rest) (.response r) =
        some (.error (.rejected r.code))) := by
  constructor
  · intro herr
    simp [sendCommandWithTimeout, herr, hne]
  · intro herr
    simp [sendCommandWithTimeout, herr]

theorem C2_witness :
    (Resp.code ⟨'S', none, false⟩ ≠ 'G') ∧
      ((Resp.error ⟨'S', none, false⟩ = false →
        sendCommandWithTimeout true true ('G' :: []) (.response ⟨'S', none, false⟩) =
          some (.error (.mismatch (Resp.code ⟨'S', none, false⟩)))) ∧
      (Resp.error ⟨'S', none, false⟩ = true →
        sendCommandWithTimeout true true ('G' :: []) (.response ⟨'S', none, false⟩) =
          some (.error (.rejected (Resp.code ⟨'S', none, false⟩))))) :=
  ⟨by decide, C2_mismatch_without_nack 'G' [] ⟨'S', none, false⟩ (by decide)⟩

/-! The response channel (`responseChan`, capacity 1) and its interaction
with abandoned calls. A `deliver` event is `responseHandler` handing a parsed
response to the channel: it is stored if the slot is free and dropped after
the handler's one-second grace otherwise. A `send` event is a
`sendCommandWithTimeout` call during whose wait no new response arrives: it
consumes a buffered response if one is present and times out otherwise. -/

inductive CorrEvent where
  | send (cmd : List Char)
  | deliver (r : Resp)
  deriving Repr

/-- One step of the correlator: returns the new channel content and, for a
`send` event, the call's result. -/
def correlatorStep (buf : Option Resp) :
    CorrEvent → Option Resp × Option (Option (Except SendErr Unit))
  | .deliver r =>
    match buf with
    | none => (some r, none)
    | some r0 => (some r0, none)  -- slot full: the response is dropped
  | .send cmd =>
    match buf with
    | some r => (none, some (sendCommandWithTimeout true true cmd (.response r)))
    | none => (none, some (sendCommandWithTimeout true true cmd .timedOut))

/-- Run the correlator over an event list, collecting each send's result. -/
def correlatorRun (buf : Option Resp) :
    List CorrEvent → Option Resp × List (Option (Except SendErr Unit))
  | [] => (buf, [])
  | e :: es =>
    let step := correlatorStep buf e
    let rest := correlatorRun step.1 es
    (rest.1, match step.2 with
      | none => rest.2
      | some res => res :: rest.2)

/-- C3: the claim says a response arriving after its call timed out is
discarded; in the code it is buffered in `responseChan` and handed to the
next call. Trace: a send of 'X' times out; the response for it then arrives
and is stored; a second send of 'X' immediately receives that stale response
and returns success — while the same second send run without the stale
delivery times out. -/
theorem C3_stale_response_delivered :
    correlatorRun none
        [.send ['X'], .deliver ⟨'X', none, false⟩, .send ['X']] =
      (none, [some (.error .timeout), some (.ok ())]) ∧
    correlatorRun none [.send ['X'], .send ['X']] =
      (none, [some (.error .timeout), some (.error .timeout)]) :=
  ⟨rfl, rfl⟩

/-! ## Driver state machine (`pkg/drivers/zro`, `Driver` over `dome.Dome`) -/

inductive ConnState where
  | disconnected
  | connecting
  | connected
  deriving Repr, DecidableEq

/-- Embeds `dome.ShutterStatus`. -/
inductive ShutterSt where
  | closed
  | opening
  | opened
  | closing
  | aborted
  | errored
  deriving Repr, DecidableEq

/-- Embeds `alpaca.ShutterStatus` (Go iota order: Open = 0 is the zero value). -/
inductive AlpacaShutter where
  | shOpen
  | shClosed
  | shOpening
  | shClosing
  | shError
  deriving Repr, DecidableEq

/-- Embeds `Driver.convertShutterStatus`. -/
def convertShutterStatus : ShutterSt → AlpacaShutter
  | .closed => .shClosed
  | .opening => .shOpening
  | .opened => .shOpen
  | .closing => .shClosing
  | .aborted => .shError
  | .errored => .shError

/-- Embeds `dome.Status`, the dome-side cached status struct. -/
structure DomeSt where
  position : ℤ
  atHome : Bool
  slewing : Bool
  dir : ℤ
  target : ℤ
  temperature : ℚ
  humidity : ℚ
  batteryVoltage : ℚ
  batteryCurrent : ℚ
  version : List Char
  shutter : ShutterSt
  shutterConnected : Bool
  deriving Repr, DecidableEq

/-- The dome status as `NewDome` leaves it: Go zero values, shutter closed. -/
def newDomeStatus : DomeSt :=
  ⟨0, false, false, 0, 0, 0, 0, 0, 0, [], .closed, false⟩

/-- A decoded telemetry message (`telemetryMsg`). -/
structure TelemetryMsg where
  azState : ℤ
  position : ℤ
  home : ℤ
  dir : ℤ
  target : ℤ
  link : ℤ
  temperature : ℚ
  humidity : ℚ
  deriving Repr, DecidableEq

/-- Embeds the field updates of `Dome.telemetryHandler` (the shutter field
is not touched by telemetry). -/
def telemetryHandler (st : DomeSt) (m : TelemetryMsg) : DomeSt :=
  { st with
    position := m.position
    dir := m.dir
    target := m.target
    atHome := decide (m.home = 1)
    slewing := decide (0 < m.azState) && decide (m.azState < 5)
    temperature := m.temperature
    humidity := m.humidity }

/-- Embeds `alpaca.DomeStatus` (field order as in the Go struct). -/
structure DomeStatus where
  atHome : Bool
  atPark : Bool
  slewing : Bool
  slaved : Bool
  altitude : ℚ
  azimuth : ℚ
  shutter : AlpacaShutter
  deriving Repr, DecidableEq

/-- The driver's mutable state: connection state, slaved flag, the dome
controller's cached status and the configuration it was created with. -/
structure DriverSt where
  state : ConnState
  slaved : Bool
  dome : DomeSt
  cfg : Config
  deriving Repr, DecidableEq

/-- The driver as `NewDriver` leaves it. -/
def newDriver (cfg : Config) : DriverSt :=
  ⟨.disconnected, false, newDomeStatus, cfg⟩

/-- The externally triggered transitions that reach new driver states:
a successful `Connect`, a `Connect` whose MQTT client creation fails (the
code leaves `Connecting` behind in that branch), telemetry and battery
ingestion, `Disconnect`, and `SetSlaved`. -/
inductive DriverEvent where
  | connect
  | connectFailMqtt
  | telemetry (m : TelemetryMsg)
  | battery (voltage current : ℚ)
  | disconnect
  | setSlaved (b : Bool)

/-- One driver transition, following the source's state updates. -/
def driverStep (d : DriverSt) : DriverEvent → DriverSt
  | .connect =>
    if d.state ≠ .disconnected then d
    else { d with state := .connected, dome := newDomeStatus }
  | .connectFailMqtt =>
    if d.state ≠ .disconnected then d
    else { d with state := .connecting }
  | .telemetry m => { d with dome := telemetryHandler d.dome m }
  | .battery v c =>
    { d with dome := { d.dome with batteryVoltage := v, batteryCurrent := c } }
  | .disconnect =>
    if d.state ≠ .connected then d else { d with state := .disconnected }
  | .setSlaved b => { d with slaved := b }

/-- Run the driver from `NewDriver` over an event sequence. -/
def driverRun (cfg : Config) (es : List DriverEvent) : DriverSt :=
  es.foldl driverStep (newDriver cfg)

/-- Embeds `Driver.Status`: the Go zero `DomeStatus` outside `Connected` (its
shutter field's zero value is `ShutterOpen`), otherwise the fields derived
from the dome's cached status. -/
def driverStatus (d : DriverSt) : DomeStatus :=
  if d.state ≠ .connected then ⟨false, false, false, false, 0, 0, .shOpen⟩
  else
    { atHome := d.dome.atHome
      atPark := d.dome.atHome
      slewing := d.dome.slewing
      slaved := d.slaved
      altitude := 0
      azimuth := ticksToDegrees d.cfg d.dome.position
      shutter := convertShutterStatus d.dome.shutter }

/-- C7: a reachable driver state refuting the range half of the claim: after
connecting, a telemetry report with `pos = 20952` (two full revolutions of
the default 10476-tick geometry) makes `Status().Azimuth = 720`, outside
`[0, 360)` — the code never normalizes the derived azimuth. -/
theorem C7_counterexample :
    (driverStatus (driverRun defaultConfig
        [.connect, .telemetry ⟨0, 20952, 0, 0, 0, 0, 0, 0⟩])).azimuth = 720 ∧
      ¬(driverStatus (driverRun defaultConfig
          [.connect, .telemetry ⟨0, 20952, 0, 0, 0, 0, 0, 0⟩])).azimuth < 360 := by
  have hrun : driverRun defaultConfig
      [.connect, .telemetry ⟨0, 20952, 0, 0, 0, 0, 0, 0⟩] =
      { state := .connected, slaved := false,
        dome := { newDomeStatus with position := 20952 }, cfg := defaultConfig } := by
    rfl
  have haz : (driverStatus (driverRun defaultConfig
      [.connect, .telemetry ⟨0, 20952, 0, 0, 0, 0, 0, 0⟩])).azimuth = 720 := by
    rw [hrun]
    simp only [driverStatus, ticksToDegrees, newDomeStatus, defaultConfig]
    norm_num
  exact ⟨haz, by rw [haz]; norm_num⟩

/-- C7 (amended): in every reachable `Connected` driver state,
`Status().Azimuth` equals `TicksToDegrees` of the most recently ingested
telemetry tick position (the position most recently written by
`telemetryHandler`), but the value is not normalized and need not lie in
`[0, 360)`; outside `Connected`, `Status()` is the zero struct. -/
theorem C7_azimuth_from_ticks (cfg : Config) (es : List DriverEvent)
    (m : TelemetryMsg) :
    ((driverRun cfg (es ++ [.telemetry m])).dome.position = m.position) ∧
    ((driverRun cfg es).state = .connected →
      (driverStatus (driverRun cfg es)).azimuth =
        ticksToDegrees (driverRun cfg es).cfg (driverRun cfg es).dome.position) := by
  constructor
  · rw [driverRun, List.foldl_append]
    rfl
  · intro hconn
    unfold driverStatus
    rw [if_neg]
    simp [hconn]

theorem C7_witness :
    ((driverRun defaultConfig
        ([.connect] ++ [.telemetry ⟨1, 5238, 1, 0, 0, 0, 0, 0⟩])).dome.position =
      (5238 : ℤ)) ∧
    ((driverRun defaultConfig [.connect]).state = .connected →
      (driverStatus (driverRun defaultConfig [.connect])).azimuth =
        ticksToDegrees (driverRun defaultConfig [.connect]).cfg
          (driverRun defaultConfig [.connect]).dome.position) :=
  C7_azimuth_from_ticks defaultConfig [.connect] ⟨1, 5238, 1, 0, 0, 0, 0, 0⟩

/-! ## `Driver.Connect` and the shutter handshake (`connectShutter`) -/

/-- The fixed retry budget of `connectShutter`. -/
def maxRetries : ℕ := 10

/-- The retry loop of `connectShutter`; `outcome attempt` tells whether that
attempt's correlated `X` command succeeds. The second argument counts the
remaining loop iterations (`maxRetries` at entry); `none` is the error
return after the budget is exhausted, `some a` reports success on attempt
`a`. -/
def connectShutterGo (outcome : ℕ → Bool) : ℕ → ℕ → Option ℕ
  | _, 0 => none
  | attempt, rem + 1 =>
    if outcome attempt then some attempt
    else if rem = 0 then none  -- `attempt == maxRetries`: give up
    else connectShutterGo outcome (attempt + 1) rem

/-- Embeds `Dome.connectShutter`. -/
def connectShutter (outcome : ℕ → Bool) : Option ℕ :=
  connectShutterGo outcome 1 maxRetries

/-- Embeds the sequential phase of `Dome.Run` after the subscriptions: shutter handshake
(when enabled), the S/V/B queries, the configuration push. The oracles stand
for the outcomes of the corresponding correlated calls. -/
def domeRun (cfg : Config) (subsOk : Bool) (shutterOutcome : ℕ → Bool)
    (queriesOk configPushOk : Bool) : Except String Unit :=
  if ¬subsOk then .error "failed to subscribe"
  else if cfg.useShutter && (connectShutter shutterOutcome).isNone then
    .error "failed to connect to shutter"
  else if ¬queriesOk then .error "failed to send query command"
  else if ¬configPushOk then .error "failed to set configuration"
  else .ok ()

/-- Embeds `Driver.Connect`: the returned triple is the driver's connection state,
Connect's own return value, and — observable in the model only — the
eventual outcome of the `Run` goroutine, which the code spawns with
`go func() { d.dome.Run(ctx) }()` and never reads. -/
def driverConnect (st : ConnState) (getConfigOk : Bool) (cfg : Config)
    (mqttOk : Bool) (subsOk : Bool) (shutterOutcome : ℕ → Bool)
    (queriesOk configPushOk : Bool) :
    ConnState × Except String Unit × Option (Except String Unit) :=
  if ¬getConfigOk then (st, .error "failed to get dome config", none)
  else if st ≠ .disconnected then (st, .error "driver is already connected", none)
  else if ¬mqttOk then (.connecting, .error "failed to create MQTT client", none)
  else if ¬cfg.validate then
    (.disconnected, .error "failed to create ZRO dome controller", none)
  else (.connected, .ok (),
    some (domeRun cfg subsOk shutterOutcome queriesOk configPushOk))

/-- C1: the handshake loop itself does exhaust a budget of exactly 10
attempts and fail (it fails even when attempt 11 would succeed, and succeeds
when attempt 10 does), but `Driver.Connect` spawns `Run` asynchronously and
discards its result: with shutter support enabled and every handshake
attempt rejected, `Connect` still returns nil and leaves the connection
state `Connected` — not an error and not `Disconnected` as the claim
states. -/
theorem C1_connect_ignores_handshake_failure :
    connectShutter (fun _ => false) = none ∧
    connectShutter (fun a => decide (11 ≤ a)) = none ∧
    connectShutter (fun a => decide (a = 10)) = some 10 ∧
    driverConnect .disconnected true defaultConfig true true (fun _ => false)
        true true =
      (.connected, .ok (), some (.error "failed to connect to shutter")) :=
  ⟨by decide, by decide, by decide, rfl⟩

/-! ## REST dispatcher: `handleAPI` and the global transaction counter

`txCounter` is an `atomic.Int32`: 32-bit bits, returned to Go's `int` as the
signed interpretation of the incremented value. The counter bits are the
natural number modulo `2^32`. -/

/-- Signed 32-bit interpretation of counter bits. -/
def toInt32 (n : ℕ) : ℤ :=
  if n % 2 ^ 32 < 2 ^ 31 then ((n % 2 ^ 32 : ℕ) : ℤ)
  else ((n % 2 ^ 32 : ℕ) : ℤ) - 2 ^ 32

/-- How one wrapped `handleAPI` call goes, seen from the counter: the
transaction-id parse can fail (400 before the counter is touched), the
handler can return `ErrBadRequest` (counter bumped, but a bare 400 replaces
the envelope), or the handler errs or succeeds (envelope emitted either
way). -/
inductive ApiRequest where
  | badTxID
  | handlerBadReq
  | handlerErr
  | handlerOk
  deriving Repr, DecidableEq

/-- One `handleAPI` call: next counter bits, plus the
`ServerTransactionID` of the emitted envelope when one is emitted
(`int(txCounter.Add(1))`). -/
def handleAPIStep (counter : ℕ) : ApiRequest → ℕ × Option ℤ
  | .badTxID => (counter, none)
  | .handlerBadReq => ((counter + 1) % 2 ^ 32, none)
  | .handlerErr => ((counter + 1) % 2 ^ 32, some (toInt32 (counter + 1)))
  | .handlerOk => ((counter + 1) % 2 ^ 32, some (toInt32 (counter + 1)))

/-- Serialized sequence of `handleAPI` calls, collecting the emitted
`ServerTransactionID`s in emission order. -/
def handleAPIRun (counter : ℕ) : List ApiRequest → ℕ × List ℤ
  | [] => (counter, [])
  | r :: rs =>
    let s := handleAPIStep counter r
    let rest := handleAPIRun s.1 rs
    (rest.1, match s.2 with
      | none => rest.2
      | some i => i :: rest.2)

/-- The `ServerTransactionID`s emitted across a request sequence, starting
from the process's initial counter value 0. -/
def emittedTxIds (rs : List ApiRequest) : List ℤ :=
  (handleAPIRun 0 rs).2

/-- The number of requests that reach `txCounter.Add(1)`. -/
def incCount : List ApiRequest → ℕ
  | [] => 0
  | .badTxID :: rs => incCount rs
  | _ :: rs => incCount rs + 1

theorem toInt32_congr {a b : ℕ} (h : a % 2 ^ 32 = b % 2 ^ 32) :
    toInt32 a = toInt32 b := by
  unfold toInt32
  rw [h]

theorem toInt32_of_lt {k : ℕ} (h : k < 2 ^ 31) : toInt32 k = (k : ℤ) := by
  unfold toInt32
  have h32 : k % 2 ^ 32 = k := Nat.mod_eq_of_lt (by omega)
  rw [h32, if_pos h]

/-- The ids emitted by `n` consecutive successful calls from counter bits
`c` are the signed interpretations of `c+1, …, c+n`. -/
theorem handleAPIRun_replicate_ids (n : ℕ) :
    ∀ c : ℕ, (handleAPIRun c (List.replicate n .handlerOk)).2 =
      (List.range n).map (fun k => toInt32 (c + k + 1)) := by
  induction n with
  | zero => intro c; rfl
  | succ n ih =>
    intro c
    rw [List.replicate_succ]
    show (toInt32 (c + 1)) :: (handleAPIRun ((c + 1) % 2 ^ 32)
        (List.replicate n .handlerOk)).2 = _
    rw [ih ((c + 1) % 2 ^ 32), List.range_succ_eq_map]
    simp only [List.map_cons, List.map_map]
    congr 1
    apply List.map_congr_left
    intro k _
    simp only [Function.comp_apply]
    apply toInt32_congr
    omega

/-- Pairwise-increasing ids and a lower bound, for runs whose increments
stay below the int32 sign flip. -/
theorem handleAPIRun_mono (rs : List ApiRequest) :
    ∀ c : ℕ, c + incCount rs < 2 ^ 31 →
      (∀ i ∈ (handleAPIRun c rs).2, (c : ℤ) < i) ∧
        List.Pairwise (· < ·) (handleAPIRun c rs).2 := by
  induction rs with
  | nil => intro c _; exact ⟨fun i hi => absurd hi (by simp [handleAPIRun]), List.Pairwise.nil⟩
  | cons r rs ih =>
    intro c hc
    cases r with
    | badTxID =>
      have h := ih c (by simpa [incCount] using hc)
      exact ⟨h.1, h.2⟩
    | handlerBadReq =>
      have hcount : incCount (ApiRequest.handlerBadReq :: rs) = incCount rs + 1 := rfl
      have hlt : c + 1 + incCount rs < 2 ^ 31 := by omega
      have hmod : (c + 1) % 2 ^ 32 = c + 1 := Nat.mod_eq_of_lt (by omega)
      have h := ih ((c + 1) % 2 ^ 32) (by rw [hmod]; exact hlt)
      refine ⟨?_, h.2⟩
      intro i hi
      have := h.1 i hi
      have : ((c + 1 : ℕ) : ℤ) < i := by rwa [hmod] at this
      push_cast at this ⊢
      linarith
    | handlerErr =>
      have hcount : incCount (ApiRequest.handlerErr :: rs) = incCount rs + 1 := rfl
      have hlt : c + 1 + incCount rs < 2 ^ 31 := by omega
      have hmod : (c + 1) % 2 ^ 32 = c + 1 := Nat.mod_eq_of_lt (by omega)
      have h := ih ((c + 1) % 2 ^ 32) (by rw [hmod]; exact hlt)
      have hid : toInt32 (c + 1) = ((c + 1 : ℕ) : ℤ) := toInt32_of_lt (by omega)
      show (∀ i ∈ toInt32 (c + 1) :: (handleAPIRun ((c + 1) % 2 ^ 32) rs).2,
          (c : ℤ) < i) ∧ _
      constructor
      · intro i hi
        rcases List.mem_cons.mp hi with h1 | h1
        · rw [h1, hid]; push_cast; linarith
        · have := h.1 i h1
          rw [hmod] at this
          push_cast at this ⊢
          linarith
      · refine List.Pairwise.cons ?_ h.2
        intro i hi
        have := h.1 i hi
        rw [hmod] at this
        rw [hid]
        exact this
    | handlerOk =>
      have hcount : incCount (ApiRequest.handlerOk :: rs) = incCount rs + 1 := rfl
      have hlt : c + 1 + incCount rs < 2 ^ 31 := by omega
      have hmod : (c + 1) % 2 ^ 32 = c + 1 := Nat.mod_eq_of_lt (by omega)
      have h := ih ((c + 1) % 2 ^ 32) (by rw [hmod]; exact hlt)
      have hid : toInt32 (c + 1) = ((c + 1 : ℕ) : ℤ) := toInt32_of_lt (by omega)
      show (∀ i ∈ toInt32 (c + 1) :: (handleAPIRun ((c + 1) % 2 ^ 32) rs).2,
          (c : ℤ) < i) ∧ _
      constructor
      · intro i hi
        rcases List.mem_cons.mp hi with h1 | h1
        · rw [h1, hid]; push_cast; linarith
        · have := h.1 i h1
          rw [hmod] at this
          push_cast at this ⊢
          linarith
      · refine List.Pairwise.cons ?_ h.2
        intro i hi
        have := h.1 i hi
        rw [hmod] at this
        rw [hid]
        exact this

/-- C9: the claim holds for no more than `2^31 - 1` emissions: `txCounter`
is a 32-bit integer, so the `2^31`-th response's `ServerTransactionID` wraps
to `-2^31`, below its predecessor's `2^31 - 1`. -/
theorem C9_counterexample :
    ¬ List.Pairwise (· < ·)
        (emittedTxIds (List.replicate (2 ^ 31) .handlerOk)) := by
  intro hp
  rw [emittedTxIds, handleAPIRun_replicate_ids (2 ^ 31) 0, List.pairwise_map] at hp
  have hlen : (List.range (2 ^ 31)).length = 2 ^ 31 := List.length_range _
  have h1 : 2 ^ 31 - 2 < (List.range (2 ^ 31)).length := by rw [hlen]; omega
  have h2 : 2 ^ 31 - 1 < (List.range (2 ^ 31)).length := by rw [hlen]; omega
  have hij := List.pairwise_iff_getElem.mp hp (2 ^ 31 - 2) (2 ^ 31 - 1) h1 h2
    (by omega)
  rw [List.getElem_range, List.getElem_range] at hij
  have e1 : toInt32 (0 + (2 ^ 31 - 2) + 1) = 2 ^ 31 - 1 := by
    rw [toInt32_of_lt (by omega)]
    norm_num
  have e2 : toInt32 (0 + (2 ^ 31 - 1) + 1) = -(2 ^ 31) := by
    unfold toInt32
    norm_num
  rw [e1, e2] at hij
  norm_num at hij

/-- C9 (amended): the emitted `ServerTransactionID`s are strictly increasing
across any serialized request sequence — successes and failures alike — as
long as fewer than `2^31` requests reach the counter (it is a 32-bit
integer and wraps after that). -/
theorem C9_txids_strictly_increasing (rs : List ApiRequest)
    (h : incCount rs < 2 ^ 31) :
    List.Pairwise (· < ·) (emittedTxIds rs) :=
  (handleAPIRun_mono rs 0 (by omega)).2

theorem C9_witness :
    incCount [.handlerOk, .handlerErr, .badTxID, .handlerBadReq, .handlerOk] <
        2 ^ 31 ∧
      List.Pairwise (· < ·)
        (emittedTxIds
          [.handlerOk, .handlerErr, .badTxID, .handlerBadReq, .handlerOk]) :=
  ⟨by decide,
    C9_txids_strictly_increasing
      [.handlerOk, .handlerErr, .badTxID, .handlerBadReq, .handlerOk]
      (by decide)⟩

end Zro
